import Mathlib

/-!
Verification of the ccmon backend core against its specification.

Instants are modelled as integers (seconds); Go `time.Time` arithmetic on
whole-second values is exact integer arithmetic.  Monetary amounts are
modelled as rationals (the Go code stores them as `float64`; all amounts
the claims mention are exactly representable and combined by addition
only, so rational arithmetic is the faithful exact model).
-/

namespace Ccmon

/-- Modelled from the spec: the fixed Block duration of 5 hours
(`TimeBlockDuration` in the tests); `entity/block.go` is not part of the
source tree, only its tests are. -/
def TimeBlockDuration : Int := 5 * 60 * 60

/-- Modelled from the spec: a Block is a fixed-duration time window anchored
at `startAt`, carrying the configured token limit used for progress
computation (`entity/block.go` is absent from the source tree). -/
structure Block where
  startAt : Int
  tokenLimit : Nat
  deriving DecidableEq, Repr

/-- Modelled from the spec: Block constructor used by the tests
(`NewBlock(startAt)`); the token limit is configured separately and
defaults to zero. -/
def NewBlock (startAt : Int) : Block :=
  ⟨startAt, 0⟩

/-- Block window end: `startAt + duration`. -/
def Block.EndAt (b : Block) : Int :=
  b.startAt + TimeBlockDuration

/-- Modelled from the spec: `NextBlock(now)` returns the same Block when
`now` lies in `[startAt, startAt+duration)`, and otherwise advances the
start by the floor-divided number of whole elapsed durations (clamped to a
non-negative count, as the spec requires the smallest non-negative `k`). -/
def Block.NextBlock (b : Block) (now : Int) : Block :=
  if b.startAt ≤ now ∧ now < b.startAt + TimeBlockDuration then
    b
  else
    let elapsed := now - b.startAt
    let k := max (elapsed.fdiv TimeBlockDuration) 0
    ⟨b.startAt + k * TimeBlockDuration, b.tokenLimit⟩

/-- Modelled from the spec: a Token value object with four non-negative
counters (`entity/token.go` is absent from the source tree; the spec says
Tokens combine via component-wise addition). -/
structure Token where
  input : Nat
  output : Nat
  cacheRead : Nat
  cacheCreation : Nat
  deriving DecidableEq, Repr

/-- Token constructor (`NewToken` in the Go tests). -/
def NewToken (input output cacheRead cacheCreation : Nat) : Token :=
  ⟨input, output, cacheRead, cacheCreation⟩

/-- Component-wise Token addition, as the spec prescribes. -/
def Token.Add (t other : Token) : Token :=
  ⟨t.input + other.input, t.output + other.output,
   t.cacheRead + other.cacheRead, t.cacheCreation + other.cacheCreation⟩

/-- `Total` = sum of all four counters. -/
def Token.Total (t : Token) : Nat :=
  t.input + t.output + t.cacheRead + t.cacheCreation

/-- `Cache` = cache-read + cache-creation. -/
def Token.Cache (t : Token) : Nat :=
  t.cacheRead + t.cacheCreation

/-- Modelled from the spec: a Cost is a non-negative monetary amount
combined by addition (`entity/cost.go` is absent from the source tree).
The amount is modelled as a rational. -/
structure Cost where
  amount : ℚ
  deriving DecidableEq, Repr

/-- Cost constructor (`NewCost` in the Go tests). -/
def NewCost (amount : ℚ) : Cost :=
  ⟨amount⟩

/-- Cost accessor. -/
def Cost.Amount (c : Cost) : ℚ :=
  c.amount

/-- Cost addition. -/
def Cost.Add (c other : Cost) : Cost :=
  ⟨c.amount + other.amount⟩

/-- Character-list prefix test, used to define substring containment
structurally so that the kernel can evaluate it. -/
def hasPrefixChars : List Char → List Char → Bool
  | _, [] => true
  | [], _ :: _ => false
  | c :: cs, p :: ps => c == p && hasPrefixChars cs ps

/-- `containsChars pat s` : does `s` contain `pat` as a contiguous
substring. -/
def containsChars (pat : List Char) : List Char → Bool
  | [] => pat.isEmpty
  | c :: cs => hasPrefixChars (c :: cs) pat || containsChars pat cs

/-- `strContainsLower s pat`: does the lower-cased `s` contain `pat`
(mirrors Go `strings.Contains(strings.ToLower(s), pat)` for an already
lower-case `pat`). -/
def strContainsLower (s pat : String) : Bool :=
  containsChars pat.data (s.data.map Char.toLower)

/-- Modelled from the spec: a Model is a name string
(`entity/model.go` is absent from the source tree). -/
structure Model where
  name : String
  deriving DecidableEq, Repr

/-- Modelled from the spec: a model is base iff its name contains
"haiku" under case-insensitive comparison. -/
def Model.IsBase (m : Model) : Bool :=
  strContainsLower m.name "haiku"

/-- Modelled from the spec: one observed usage event
(`entity/api_request.go` is absent from the source tree; the field list
follows the spec and the construction sites in the tests). -/
structure APIRequest where
  sessionID : String
  timestamp : Int
  model : Model
  tokens : Token
  cost : Cost
  durationMS : Int
  deriving DecidableEq, Repr

/-- APIRequest constructor as called in the tests:
`NewAPIRequest(sessionID, timestamp, modelName, tokens, cost, duration)`. -/
def NewAPIRequest (sessionID : String) (timestamp : Int) (modelName : String)
    (tokens : Token) (cost : Cost) (durationMS : Int) : APIRequest :=
  ⟨sessionID, timestamp, ⟨modelName⟩, tokens, cost, durationMS⟩

/-- Modelled from the spec: a half-open UTC time interval `[start, end)`
(`entity/period.go` is absent from the source tree). -/
structure Period where
  startAt : Int
  endAt : Int
  deriving DecidableEq, Repr

/-- Stats, from `src/entity/stats.go`: aggregated statistics for API
requests, split into base and premium parts. -/
structure Stats where
  baseRequests : Nat
  premiumRequests : Nat
  baseTokens : Token
  premiumTokens : Token
  baseCost : Cost
  premiumCost : Cost
  period : Period
  deriving DecidableEq, Repr

/-- Getter from `src/entity/stats.go`. -/
def Stats.BaseRequests (s : Stats) : Nat := s.baseRequests

/-- Getter from `src/entity/stats.go`. -/
def Stats.PremiumRequests (s : Stats) : Nat := s.premiumRequests

/-- Getter from `src/entity/stats.go`. -/
def Stats.BaseTokens (s : Stats) : Token := s.baseTokens

/-- Getter from `src/entity/stats.go`. -/
def Stats.PremiumTokens (s : Stats) : Token := s.premiumTokens

/-- Getter from `src/entity/stats.go`. -/
def Stats.BaseCost (s : Stats) : Cost := s.baseCost

/-- Getter from `src/entity/stats.go`. -/
def Stats.PremiumCost (s : Stats) : Cost := s.premiumCost

/-- From `src/entity/stats.go`: `TotalRequests` returns
`baseRequests + premiumRequests`, computed on demand. -/
def Stats.TotalRequests (s : Stats) : Nat :=
  s.baseRequests + s.premiumRequests

/-- From `src/entity/stats.go`: `TotalTokens` returns
`baseTokens.Add(premiumTokens)`, computed on demand. -/
def Stats.TotalTokens (s : Stats) : Token :=
  s.baseTokens.Add s.premiumTokens

/-- From `src/entity/stats.go`: `TotalCost` returns
`baseCost.Add(premiumCost)`, computed on demand. -/
def Stats.TotalCost (s : Stats) : Cost :=
  s.baseCost.Add s.premiumCost

/-- From `src/entity/stats.go`: `NewStats` constructor. -/
def NewStats (baseRequests premiumRequests : Nat) (baseTokens premiumTokens : Token)
    (baseCost premiumCost : Cost) (period : Period) : Stats :=
  ⟨baseRequests, premiumRequests, baseTokens, premiumTokens, baseCost, premiumCost, period⟩

/-- The aggregation loop of `GetStatsByPeriod` in
`src/auth/interceptor_test.go` (mockAuthStatsRepository): walk the request
list, accumulating counts, token sums and cost sums into the base or the
premium bucket according to `Model().IsBase()`. -/
def statsLoop (period : Period) : List APIRequest → Nat → Nat → Token → Token → Cost → Cost → Stats
  | [], baseRequests, premiumRequests, baseTokens, premiumTokens, baseCost, premiumCost =>
    NewStats baseRequests premiumRequests baseTokens premiumTokens baseCost premiumCost period
  | req :: rest, baseRequests, premiumRequests, baseTokens, premiumTokens, baseCost, premiumCost =>
    if req.model.IsBase then
      statsLoop period rest (baseRequests + 1) premiumRequests
        (baseTokens.Add req.tokens) premiumTokens (baseCost.Add req.cost) premiumCost
    else
      statsLoop period rest baseRequests (premiumRequests + 1)
        baseTokens (premiumTokens.Add req.tokens) baseCost (premiumCost.Add req.cost)

/-- `GetStatsByPeriod` from `src/auth/interceptor_test.go`: aggregate the
stored requests into a Stats value, starting from zero accumulators. -/
def GetStatsByPeriod (requests : List APIRequest) (period : Period) : Stats :=
  statsLoop period requests 0 0 (NewToken 0 0 0 0) (NewToken 0 0 0 0) (NewCost 0) (NewCost 0)

/-- gRPC metadata: a finite map from keys to lists of values, modelled as
an association list (keys used by this code are already lower-case, so the
canonicalisation Go performs is the identity here). -/
structure Metadata where
  pairs : List (String × List String)
  deriving DecidableEq, Repr

/-- `md.Get(key)`: the list of values stored under `key` (empty when the
key is absent), as used by the interceptors. -/
def Metadata.Get (md : Metadata) (key : String) : List String :=
  (md.pairs.lookup key).getD []

/-- `metadata.New(map)`: build metadata from single-valued entries. -/
def Metadata.New (kvs : List (String × String)) : Metadata :=
  ⟨kvs.map (fun kv => (kv.1, [kv.2]))⟩

/-- A call context: the incoming metadata (absent when the peer attached
none) and the outgoing metadata. -/
structure Context where
  incoming : Option Metadata
  outgoing : Option Metadata
  deriving DecidableEq, Repr

/-- `metadata.FromIncomingContext(ctx)`. -/
def FromIncomingContext (ctx : Context) : Option Metadata :=
  ctx.incoming

/-- `metadata.NewOutgoingContext(ctx, md)`: replace the outgoing metadata. -/
def NewOutgoingContext (ctx : Context) (md : Metadata) : Context :=
  { ctx with outgoing := some md }

/-- Outcome of an intercepted call: either the handler's result or an
`Unauthenticated` status error with its message. -/
inductive AuthResult (α : Type) where
  | ok (val : α)
  | unauthenticated (msg : String)
  deriving DecidableEq, Repr

/-- `isValidAuth` from `src/auth/interceptor.go`: direct string
comparison of the authorization header against the required token. -/
def isValidAuth (authHeader requiredToken : String) : Bool :=
  authHeader == requiredToken

/-- `UnaryServerInterceptor` from `src/auth/interceptor.go`: skip auth on
an empty configured token; otherwise require incoming metadata, a
non-empty "authorization" value list, and a first value passing
`isValidAuth`, then run the handler. -/
def UnaryServerInterceptor {α : Type} (requiredToken : String) (ctx : Context)
    (handler : Context → α) : AuthResult α :=
  if requiredToken = "" then
    .ok (handler ctx)
  else
    match FromIncomingContext ctx with
    | none => .unauthenticated "missing metadata"
    | some md =>
      match md.Get "authorization" with
      | [] => .unauthenticated "missing authorization header"
      | authHeader :: _ =>
        if isValidAuth authHeader requiredToken then
          .ok (handler ctx)
        else
          .unauthenticated "invalid authorization token"

/-- `StreamServerInterceptor` from `src/auth/interceptor.go`: the same
check against the stream's context, then run the stream handler. -/
def StreamServerInterceptor {α : Type} (requiredToken : String) (ss : Context)
    (handler : Context → α) : AuthResult α :=
  if requiredToken = "" then
    .ok (handler ss)
  else
    match FromIncomingContext ss with
    | none => .unauthenticated "missing metadata"
    | some md =>
      match md.Get "authorization" with
      | [] => .unauthenticated "missing authorization header"
      | authHeader :: _ =>
        if isValidAuth authHeader requiredToken then
          .ok (handler ss)
        else
          .unauthenticated "invalid authorization token"

/-- `ClientInterceptor` from `src/auth/interceptor.go`: with an empty
token invoke unchanged; otherwise install fresh outgoing metadata holding
only the "authorization" key with the token as-is, then invoke. -/
def ClientInterceptor {β : Type} (token : String) (ctx : Context)
    (invoker : Context → β) : β :=
  if token = "" then
    invoker ctx
  else
    let md := Metadata.New [("authorization", token)]
    invoker (NewOutgoingContext ctx md)

/-- Block token limit accessor. -/
def Block.TokenLimit (b : Block) : Nat :=
  b.tokenLimit

/-- Modelled from the spec: `CalculateProgress(tokensUsed)` returns
`tokensUsed / limit * 100` as a raw, unclamped percentage
(`entity/block.go` is absent from the source tree). -/
def Block.CalculateProgress (b : Block) (tokensUsed : ℚ) : ℚ :=
  tokensUsed / (b.tokenLimit : ℚ) * 100

/-- The percentage actually rendered by `renderBlockProgress` in
`src/handler/tui/stats_renderer.go`: the raw `CalculateProgress` value,
clamped to 100 when it exceeds 100. -/
def renderBlockProgressPercentage (b : Block) (tokensUsed : ℚ) : ℚ :=
  let percentage := b.CalculateProgress tokensUsed
  if percentage > 100 then 100 else percentage

/-- Modelled from the spec: a Plan is a named subscription tier with an
associated price (`entity/plan.go` is absent from the source tree). -/
structure Plan where
  name : String
  price : Cost
  deriving DecidableEq, Repr

/-- Plan constructor (`NewPlan` in the Go tests). -/
def NewPlan (name : String) (price : Cost) : Plan :=
  ⟨name, price⟩

/-- The "unset" sentinel tier. -/
def Plan.IsUnset (p : Plan) : Bool :=
  p.name == "unset"

/-- Modelled from the spec: daily plan-usage percentage — the daily cost
against the daily budget `price / daysInMonth`, as an integer percentage;
the "unset" sentinel always yields zero. -/
def dailyPlanUsagePercentage (p : Plan) (dailyCost : Cost) (daysInMonth : Nat) : Int :=
  if p.IsUnset then 0
  else ⌊dailyCost.amount / (p.price.amount / (daysInMonth : ℚ)) * 100⌋

/-- Modelled from the spec: monthly plan-usage percentage — the monthly
cost against the plan price, as an integer percentage; the "unset"
sentinel always yields zero. -/
def monthlyPlanUsagePercentage (p : Plan) (monthlyCost : Cost) : Int :=
  if p.IsUnset then 0
  else ⌊monthlyCost.amount / p.price.amount * 100⌋

/-- Helper: Token sums folded onto an initial accumulator, in list order,
exactly as the Go aggregation loop accumulates. -/
def sumTokensFrom (init : Token) (l : List Token) : Token :=
  l.foldl Token.Add init

/-- Helper: Cost sums folded onto an initial accumulator, in list order. -/
def sumCostsFrom (init : Cost) (l : List Cost) : Cost :=
  l.foldl Cost.Add init

/-- Helper: on inputs not inside the current window, `NextBlock` advances
by the floor-divided number of elapsed durations, clamped to zero. -/
lemma nextBlock_of_not_within (b : Block) (now : Int)
    (h : ¬(b.startAt ≤ now ∧ now < b.startAt + TimeBlockDuration)) :
    b.NextBlock now =
      ⟨b.startAt + max ((now - b.startAt) / TimeBlockDuration) 0 * TimeBlockDuration,
       b.tokenLimit⟩ := by
  unfold Block.NextBlock
  rw [if_neg h]
  show (⟨b.startAt + max ((now - b.startAt).fdiv TimeBlockDuration) 0 * TimeBlockDuration,
         b.tokenLimit⟩ : Block) = _
  rw [Int.fdiv_eq_ediv (now - b.startAt) (by norm_num [TimeBlockDuration])]

/-- C1: on `[startAt, startAt+duration)` the Block is returned unchanged;
otherwise the result starts at `startAt + k*duration` for the smallest
non-negative `k` with `now < startAt + (k+1)*duration`.  The exact end
boundary advances to the next window, and the test vectors from
`TestBlock_NextBlock` hold, including the 22-hour jump from a 10:00 start
to the `[06:00, 11:00)` window of the next day. -/
theorem nextBlock_halfOpen_windows (b : Block) (now : Int) :
    (b.startAt ≤ now ∧ now < b.startAt + TimeBlockDuration → b.NextBlock now = b) ∧
    (¬(b.startAt ≤ now ∧ now < b.startAt + TimeBlockDuration) →
      ∃ k : Int, 0 ≤ k ∧
        b.NextBlock now = ⟨b.startAt + k * TimeBlockDuration, b.tokenLimit⟩ ∧
        now < b.startAt + (k + 1) * TimeBlockDuration ∧
        (∀ j : Int, 0 ≤ j → now < b.startAt + (j + 1) * TimeBlockDuration → k ≤ j)) ∧
    (b.NextBlock (b.startAt + TimeBlockDuration)).startAt = b.startAt + TimeBlockDuration ∧
    (NewBlock 36000).NextBlock 45000 = NewBlock 36000 ∧
    (NewBlock 36000).NextBlock 54000 = NewBlock 54000 ∧
    (NewBlock 36000).NextBlock 59400 = NewBlock 54000 ∧
    (NewBlock 36000).NextBlock 115200 = NewBlock 108000 ∧
    (NewBlock 108000).EndAt = 126000 := by
  refine ⟨?_, ?_, ?_, by decide, by decide, by decide, by decide, by decide⟩
  · intro h
    unfold Block.NextBlock
    rw [if_pos h]
  · intro h
    have hD : TimeBlockDuration = 18000 := by norm_num [TimeBlockDuration]
    refine ⟨max ((now - b.startAt) / TimeBlockDuration) 0, le_max_right _ _,
      nextBlock_of_not_within b now h, ?_, ?_⟩
    · rw [hD] at h ⊢
      rcases max_cases ((now - b.startAt) / (18000 : Int)) 0 with ⟨hm, hc⟩ | ⟨hm, hc⟩ <;>
        rw [hm] <;> omega
    · intro j hj hjlt
      rw [hD] at h hjlt ⊢
      rcases max_cases ((now - b.startAt) / (18000 : Int)) 0 with ⟨hm, hc⟩ | ⟨hm, hc⟩ <;>
        rw [hm] <;> omega
  · rw [nextBlock_of_not_within b _ (by simp [TimeBlockDuration])]
    show b.startAt + max ((b.startAt + TimeBlockDuration - b.startAt) / TimeBlockDuration) 0
        * TimeBlockDuration = b.startAt + TimeBlockDuration
    have h1 : b.startAt + TimeBlockDuration - b.startAt = TimeBlockDuration := by ring
    rw [h1]
    have h2 : max (TimeBlockDuration / TimeBlockDuration) 0 * TimeBlockDuration
        = TimeBlockDuration := by decide
    rw [h2]

/-- Helper: the aggregation loop, started from arbitrary accumulators,
produces the accumulators extended by the base/premium partition of the
remaining requests. -/
lemma statsLoop_spec (period : Period) (reqs : List APIRequest) :
    ∀ br pr bt pt bc pc,
      statsLoop period reqs br pr bt pt bc pc =
        NewStats
          (br + (reqs.filter (fun r => r.model.IsBase)).length)
          (pr + (reqs.filter (fun r => !r.model.IsBase)).length)
          (sumTokensFrom bt ((reqs.filter (fun r => r.model.IsBase)).map (fun r => r.tokens)))
          (sumTokensFrom pt ((reqs.filter (fun r => !r.model.IsBase)).map (fun r => r.tokens)))
          (sumCostsFrom bc ((reqs.filter (fun r => r.model.IsBase)).map (fun r => r.cost)))
          (sumCostsFrom pc ((reqs.filter (fun r => !r.model.IsBase)).map (fun r => r.cost)))
          period := by
  induction reqs with
  | nil =>
    intro br pr bt pt bc pc
    simp [statsLoop, sumTokensFrom, sumCostsFrom]
  | cons req rest ih =>
    intro br pr bt pt bc pc
    by_cases hb : req.model.IsBase
    · simp [statsLoop, hb, ih, List.filter_cons, sumTokensFrom, sumCostsFrom,
        NewStats, Stats.mk.injEq]
      all_goals omega
    · simp [statsLoop, hb, ih, List.filter_cons, sumTokensFrom, sumCostsFrom,
        NewStats, Stats.mk.injEq]
      all_goals omega

/-- C4: the combined Stats totals are computed on demand from the base and
premium parts: `TotalRequests = BaseRequests + PremiumRequests`,
`TotalTokens = BaseTokens.Add PremiumTokens`, and
`TotalCost = BaseCost.Add PremiumCost`. -/
theorem stats_totals_computed_on_demand (s : Stats) :
    s.TotalRequests = s.BaseRequests + s.PremiumRequests ∧
    s.TotalTokens = (s.BaseTokens).Add (s.PremiumTokens) ∧
    s.TotalCost = (s.BaseCost).Add (s.PremiumCost) :=
  ⟨rfl, rfl, rfl⟩

/-- C5: a model is base iff its name contains "haiku" case-insensitively,
and Stats aggregation partitions request counts, token sums and cost sums
by exactly this classification; in particular one base request (tokens
200/160/0/0, cost 0.01) plus one premium request (tokens 666/500/0/0,
cost 0.02) yields BaseRequests = 1, PremiumRequests = 1 and
TotalCost = 0.03. -/
theorem model_classification_partitions_stats (m : Model) (reqs : List APIRequest)
    (period : Period) :
    (m.IsBase = strContainsLower m.name "haiku") ∧
    (GetStatsByPeriod reqs period).BaseRequests
      = (reqs.filter (fun r => r.model.IsBase)).length ∧
    (GetStatsByPeriod reqs period).PremiumRequests
      = (reqs.filter (fun r => !r.model.IsBase)).length ∧
    (GetStatsByPeriod reqs period).BaseTokens
      = sumTokensFrom (NewToken 0 0 0 0)
          ((reqs.filter (fun r => r.model.IsBase)).map (fun r => r.tokens)) ∧
    (GetStatsByPeriod reqs period).PremiumTokens
      = sumTokensFrom (NewToken 0 0 0 0)
          ((reqs.filter (fun r => !r.model.IsBase)).map (fun r => r.tokens)) ∧
    (GetStatsByPeriod reqs period).BaseCost
      = sumCostsFrom (NewCost 0)
          ((reqs.filter (fun r => r.model.IsBase)).map (fun r => r.cost)) ∧
    (GetStatsByPeriod reqs period).PremiumCost
      = sumCostsFrom (NewCost 0)
          ((reqs.filter (fun r => !r.model.IsBase)).map (fun r => r.cost)) ∧
    (Model.mk "claude-3-haiku-20240307").IsBase = true ∧
    (Model.mk "claude-3-5-sonnet-20241022").IsBase = false ∧
    (GetStatsByPeriod
        [NewAPIRequest "daily-base-0" 100 "claude-3-haiku-20240307"
          (NewToken 200 160 0 0) (NewCost (1/100)) 1000,
         NewAPIRequest "daily-premium-0" 100 "claude-3-5-sonnet-20241022"
          (NewToken 666 500 0 0) (NewCost (1/50)) 1000]
        ⟨0, 86400⟩).BaseRequests = 1 ∧
    (GetStatsByPeriod
        [NewAPIRequest "daily-base-0" 100 "claude-3-haiku-20240307"
          (NewToken 200 160 0 0) (NewCost (1/100)) 1000,
         NewAPIRequest "daily-premium-0" 100 "claude-3-5-sonnet-20241022"
          (NewToken 666 500 0 0) (NewCost (1/50)) 1000]
        ⟨0, 86400⟩).PremiumRequests = 1 ∧
    (GetStatsByPeriod
        [NewAPIRequest "daily-base-0" 100 "claude-3-haiku-20240307"
          (NewToken 200 160 0 0) (NewCost (1/100)) 1000,
         NewAPIRequest "daily-premium-0" 100 "claude-3-5-sonnet-20241022"
          (NewToken 666 500 0 0) (NewCost (1/50)) 1000]
        ⟨0, 86400⟩).TotalCost = NewCost (3/100) := by
  have hpart := statsLoop_spec period reqs 0 0 (NewToken 0 0 0 0) (NewToken 0 0 0 0)
    (NewCost 0) (NewCost 0)
  have h₁ : (Model.mk "claude-3-haiku-20240307").IsBase = true := by decide
  have h₂ : (Model.mk "claude-3-5-sonnet-20241022").IsBase = false := by decide
  refine ⟨rfl, ?_, ?_, ?_, ?_, ?_, ?_, h₁, h₂, ?_, ?_, ?_⟩
  · rw [GetStatsByPeriod, hpart]; simp [NewStats, Stats.BaseRequests]
  · rw [GetStatsByPeriod, hpart]; simp [NewStats, Stats.PremiumRequests]
  · rw [GetStatsByPeriod, hpart]; rfl
  · rw [GetStatsByPeriod, hpart]; rfl
  · rw [GetStatsByPeriod, hpart]; rfl
  · rw [GetStatsByPeriod, hpart]; rfl
  · simp [GetStatsByPeriod, statsLoop, NewAPIRequest, h₁, h₂, NewStats, Stats.BaseRequests]
  · simp [GetStatsByPeriod, statsLoop, NewAPIRequest, h₁, h₂, NewStats, Stats.PremiumRequests]
  · simp [GetStatsByPeriod, statsLoop, NewAPIRequest, h₁, h₂, NewStats,
      Stats.TotalCost, Cost.Add, NewCost]
    norm_num

/-- C6: `CalculateProgress` returns the raw percentage
`tokensUsed / limit * 100`, which may exceed 100; the TUI's
`renderBlockProgress` clamps the rendered value to at most 100 (it equals
`min raw 100`), while the raw value stays obtainable — e.g. 775 from
tokens 775 against limit 100, and 775% from a monthly format query of
cost 155 against a 20-dollar plan. -/
theorem calculateProgress_raw_and_clamped (b : Block) (tokensUsed : ℚ) :
    b.CalculateProgress tokensUsed = tokensUsed / (b.TokenLimit : ℚ) * 100 ∧
    renderBlockProgressPercentage b tokensUsed ≤ 100 ∧
    renderBlockProgressPercentage b tokensUsed = min (b.CalculateProgress tokensUsed) 100 ∧
    (Block.mk 0 100).CalculateProgress 775 = 775 ∧
    100 < (Block.mk 0 100).CalculateProgress 775 ∧
    renderBlockProgressPercentage (Block.mk 0 100) 775 = 100 ∧
    monthlyPlanUsagePercentage (NewPlan "pro" (NewCost 20)) (NewCost 155) = 775 := by
  have hraw : (Block.mk 0 100).CalculateProgress 775 = 775 := by
    norm_num [Block.CalculateProgress]
  refine ⟨rfl, ?_, ?_, hraw, ?_, ?_, ?_⟩
  · simp only [renderBlockProgressPercentage]
    split
    · exact le_refl 100
    · exact not_lt.mp (by assumption)
  · simp only [renderBlockProgressPercentage]
    split
    · exact (min_eq_right (le_of_lt (by assumption))).symm
    · exact (min_eq_left (not_lt.mp (by assumption))).symm
  · rw [hraw]; norm_num
  · simp only [renderBlockProgressPercentage, hraw]
    norm_num
  · simp [monthlyPlanUsagePercentage, NewPlan, Plan.IsUnset, NewCost]
    norm_num

/-- C7: the "unset" sentinel Plan carries zero price and every
usage-percentage computed against an unset plan — daily or monthly — is
zero, whatever the accumulated cost. -/
theorem unsetPlan_always_zero_usage (p : Plan) (hp : p.name = "unset")
    (dailyCost monthlyCost : Cost) (daysInMonth : Nat) :
    (NewPlan "unset" (NewCost 0)).price.Amount = 0 ∧
    dailyPlanUsagePercentage p dailyCost daysInMonth = 0 ∧
    monthlyPlanUsagePercentage p monthlyCost = 0 := by
  have hu : p.IsUnset = true := by simp [Plan.IsUnset, hp]
  exact ⟨rfl, by simp [dailyPlanUsagePercentage, hu],
    by simp [monthlyPlanUsagePercentage, hu]⟩

/-- Witness for C7 at the concrete unset plan and cost 155. -/
theorem unsetPlan_always_zero_usage_witness :
    (NewPlan "unset" (NewCost 0)).name = "unset" ∧
    dailyPlanUsagePercentage (NewPlan "unset" (NewCost 0)) (NewCost 155) 30 = 0 ∧
    monthlyPlanUsagePercentage (NewPlan "unset" (NewCost 0)) (NewCost 155) = 0 :=
  ⟨rfl,
   (unsetPlan_always_zero_usage (NewPlan "unset" (NewCost 0)) rfl
     (NewCost 155) (NewCost 155) 30).2.1,
   (unsetPlan_always_zero_usage (NewPlan "unset" (NewCost 0)) rfl
     (NewCost 155) (NewCost 155) 30).2.2⟩

/-- C2: with a non-empty configured token the server interceptors run the
handler exactly when the incoming metadata's first "authorization" value
equals the token byte-for-byte; missing metadata, a missing header, or a
mismatching value yield an Unauthenticated error before the handler runs,
on both the unary and the streaming path; a call whose handler did run
necessarily carried an "authorization" value equal to the token. -/
theorem server_auth_requires_exact_token {α : Type} (T : String) (hT : T ≠ "")
    (ctx : Context) (handler : Context → α) :
    (ctx.incoming = none →
      UnaryServerInterceptor T ctx handler = .unauthenticated "missing metadata" ∧
      StreamServerInterceptor T ctx handler = .unauthenticated "missing metadata") ∧
    (∀ md, ctx.incoming = some md → md.Get "authorization" = [] →
      UnaryServerInterceptor T ctx handler = .unauthenticated "missing authorization header" ∧
      StreamServerInterceptor T ctx handler = .unauthenticated "missing authorization header") ∧
    (∀ md v rest, ctx.incoming = some md → md.Get "authorization" = v :: rest → v ≠ T →
      UnaryServerInterceptor T ctx handler = .unauthenticated "invalid authorization token" ∧
      StreamServerInterceptor T ctx handler = .unauthenticated "invalid authorization token") ∧
    (∀ md rest, ctx.incoming = some md → md.Get "authorization" = T :: rest →
      UnaryServerInterceptor T ctx handler = .ok (handler ctx) ∧
      StreamServerInterceptor T ctx handler = .ok (handler ctx)) ∧
    (∀ a, UnaryServerInterceptor T ctx handler = .ok a →
      ∃ md, ctx.incoming = some md ∧ T ∈ md.Get "authorization") := by
  refine ⟨?_, ?_, ?_, ?_, ?_⟩
  · intro h
    constructor <;>
      simp [UnaryServerInterceptor, StreamServerInterceptor, FromIncomingContext, hT, h]
  · intro md hmd hget
    constructor <;>
      simp [UnaryServerInterceptor, StreamServerInterceptor, FromIncomingContext, hT, hmd, hget]
  · intro md v rest hmd hget hv
    constructor <;>
      simp [UnaryServerInterceptor, StreamServerInterceptor, FromIncomingContext, hT, hmd,
        hget, isValidAuth, hv]
  · intro md rest hmd hget
    constructor <;>
      simp [UnaryServerInterceptor, StreamServerInterceptor, FromIncomingContext, hT, hmd,
        hget, isValidAuth]
  · intro a ha
    rcases hmd : ctx.incoming with _ | md
    · simp [UnaryServerInterceptor, FromIncomingContext, hT, hmd] at ha
    · refine ⟨md, rfl, ?_⟩
      rcases hget : md.Get "authorization" with _ | ⟨v, rest⟩
      · simp [UnaryServerInterceptor, FromIncomingContext, hT, hmd, hget] at ha
      · by_cases hv : isValidAuth v T
        · have : v = T := by simpa [isValidAuth] using hv
          rw [this]
          exact List.mem_cons_self T rest
        · simp [UnaryServerInterceptor, FromIncomingContext, hT, hmd, hget, hv] at ha

/-- Witness for C2 at the token and metadata used by
`TestAuth_ValidAuthentication`. -/
theorem server_auth_requires_exact_token_witness :
    ("Bearer test-secret-token" ≠ "") ∧
    UnaryServerInterceptor "Bearer test-secret-token"
      (Context.mk (some (Metadata.New [("authorization", "Bearer test-secret-token")])) none)
      (fun _ => (0 : Nat)) = .ok 0 :=
  ⟨by decide,
   ((server_auth_requires_exact_token "Bearer test-secret-token" (by decide)
      (Context.mk (some (Metadata.New [("authorization", "Bearer test-secret-token")])) none)
      (fun _ => (0 : Nat))).2.2.2.1
      (Metadata.New [("authorization", "Bearer test-secret-token")]) [] rfl (by decide)).1⟩

/-- C3: with an empty configured token authentication is disabled on every
path: both server interceptors run the handler for every call whatever the
"authorization" metadata, and the client interceptor forwards every call
with its context unmodified. -/
theorem empty_token_disables_auth {α β : Type} (ctx : Context)
    (handler : Context → α) (invoker : Context → β) :
    UnaryServerInterceptor "" ctx handler = .ok (handler ctx) ∧
    StreamServerInterceptor "" ctx handler = .ok (handler ctx) ∧
    ClientInterceptor "" ctx invoker = invoker ctx := by
  refine ⟨?_, ?_, ?_⟩ <;>
    simp [UnaryServerInterceptor, StreamServerInterceptor, ClientInterceptor]

/-- C8: with a non-empty configured token the client interceptor invokes
the call on a context whose outgoing metadata carries the token verbatim
under "authorization", and a server configured with the same token accepts
that metadata and runs the handler. -/
theorem client_attaches_token_verbatim {α β : Type} (T : String) (hT : T ≠ "")
    (ctx : Context) (handler : Context → α) (invoker : Context → β) :
    ClientInterceptor T ctx invoker
      = invoker (NewOutgoingContext ctx (Metadata.New [("authorization", T)])) ∧
    (Metadata.New [("authorization", T)]).Get "authorization" = [T] ∧
    UnaryServerInterceptor T
      (Context.mk (some (Metadata.New [("authorization", T)])) none) handler
      = .ok (handler (Context.mk (some (Metadata.New [("authorization", T)])) none)) := by
  refine ⟨?_, ?_, ?_⟩
  · simp [ClientInterceptor, hT]
  · simp [Metadata.New, Metadata.Get, List.lookup]
  · simp [UnaryServerInterceptor, FromIncomingContext, hT, Metadata.New, Metadata.Get,
      List.lookup, isValidAuth]

/-- Witness for C8 at the token "Bearer tok". -/
theorem client_attaches_token_verbatim_witness :
    ("Bearer tok" ≠ "") ∧
    (Metadata.New [("authorization", "Bearer tok")]).Get "authorization" = ["Bearer tok"] :=
  ⟨by decide,
   (client_attaches_token_verbatim "Bearer tok" (by decide)
     (Context.mk none none) (fun c => c) (fun c => c)).2.1⟩

/-- C9: with a non-empty configured token both server interceptors compare
only the first "authorization" value against the token: when the first
value mismatches, the call is rejected as Unauthenticated even though a
later value in the same metadata equals the token. -/
theorem server_checks_first_auth_value_only {α : Type} (T : String) (hT : T ≠ "")
    (ctx : Context) (handler : Context → α) (md : Metadata) (v : String)
    (rest : List String) (hmd : ctx.incoming = some md)
    (hget : md.Get "authorization" = v :: rest) (hv : v ≠ T) (hlater : T ∈ rest) :
    UnaryServerInterceptor T ctx handler = .unauthenticated "invalid authorization token" ∧
    StreamServerInterceptor T ctx handler = .unauthenticated "invalid authorization token" := by
  constructor <;>
    simp [UnaryServerInterceptor, StreamServerInterceptor, FromIncomingContext, hT, hmd,
      hget, isValidAuth, hv]

/-- Witness for C9: first value "wrong", second value equal to the
configured token "secret"; the call is still rejected. -/
theorem server_checks_first_auth_value_only_witness :
    ("secret" ≠ "") ∧
    UnaryServerInterceptor "secret"
      (Context.mk (some (Metadata.mk [("authorization", ["wrong", "secret"])])) none)
      (fun _ => (0 : Nat)) = .unauthenticated "invalid authorization token" :=
  ⟨by decide,
   (server_checks_first_auth_value_only "secret" (by decide)
     (Context.mk (some (Metadata.mk [("authorization", ["wrong", "secret"])])) none)
     (fun _ => (0 : Nat))
     (Metadata.mk [("authorization", ["wrong", "secret"])]) "wrong" ["secret"]
     rfl (by decide) (by decide) (by decide)).1⟩

/-- C10: with a non-empty configured token the client interceptor installs
a fresh outgoing metadata holding only the "authorization" key, and the
installed metadata is the same whatever outgoing metadata was previously
attached — prior metadata is discarded, not preserved. -/
theorem client_replaces_outgoing_metadata {β : Type} (T : String) (hT : T ≠ "")
    (ctx : Context) (invoker : Context → β) (mdPrev : Metadata) :
    ClientInterceptor T ctx invoker
      = invoker { ctx with outgoing := some (Metadata.New [("authorization", T)]) } ∧
    (Metadata.New [("authorization", T)]).pairs.map Prod.fst = ["authorization"] ∧
    ClientInterceptor T { ctx with outgoing := some mdPrev } invoker
      = ClientInterceptor T { ctx with outgoing := none } invoker := by
  refine ⟨?_, ?_, ?_⟩
  · simp [ClientInterceptor, hT, NewOutgoingContext]
  · simp [Metadata.New]
  · simp [ClientInterceptor, hT, NewOutgoingContext]

/-- Witness for C10 at the token "tok": the outgoing metadata holds only
the "authorization" key. -/
theorem client_replaces_outgoing_metadata_witness :
    ("tok" ≠ "") ∧
    (Metadata.New [("authorization", "tok")]).pairs.map Prod.fst = ["authorization"] :=
  ⟨by decide,
   (client_replaces_outgoing_metadata "tok" (by decide)
     (Context.mk none none) (fun c => c) (Metadata.mk [])).2.1⟩

end Ccmon
